import Mathlib

/-!
Shallow embedding of the HRMS-Lite backend (Ethara.ai).

The repository has two near-duplicate backends:
* `src/backend/main.py` — FastAPI + MongoDB (motor); the primary backend.
* `src/backend/test/test.py` — FastAPI + SQLAlchemy; the alternate backend.

Both expose the same five operations: create employee, list employees,
mark/upsert attendance, list/filter attendance, attendance stats.  This file
embeds the data model, the validators and the request handlers as pure Lean
functions over an explicit store state, and proves the frozen claims about
them.
-/

namespace HRMS

/-! ## Calendar dates

Python `datetime.date` values are always valid calendar dates and compare
lexicographically on (year, month, day).  We embed a date as the naturals
triple; the comparison operators below are exactly that lexicographic order,
which agrees with Python's `date` ordering on all dates the system constructs.
-/

structure PyDate where
  year : Nat
  month : Nat
  day : Nat
deriving DecidableEq, Repr

/-- Strict order on dates, as Python's `date.__gt__` / `__lt__`. -/
def PyDate.lt (a b : PyDate) : Bool :=
  a.year < b.year
    || (a.year == b.year
        && (a.month < b.month || (a.month == b.month && a.day < b.day)))

/-- Non-strict order on dates, as Python's `date.__ge__` / `__le__`. -/
def PyDate.le (a b : PyDate) : Bool :=
  a.year < b.year
    || (a.year == b.year
        && (a.month < b.month || (a.month == b.month && a.day ≤ b.day)))

/-! ## Python string trimming

Python's `str.strip()` removes leading and trailing whitespace characters;
for ASCII these are space, tab, newline, carriage return, vertical tab and
form feed. -/

def isPySpace (c : Char) : Bool :=
  c = ' ' || c = '\t' || c = '\n' || c = '\r' || c = '\x0b' || c = '\x0c'

/-- Embedding of Python's `str.strip()`. -/
def pyStrip (s : String) : String :=
  ⟨((s.data.dropWhile isPySpace).reverse.dropWhile isPySpace).reverse⟩

/-! ## Date-string parsing

`main.py` parses the `date_from` / `date_to` query strings with
`datetime.strptime(s, "%Y-%m-%d")`: exactly four year digits, one or two
month digits (1..12), one or two day digits valid for the month, nothing
else in the string; `datetime` additionally requires year ≥ 1.  The SQL
backend lets pydantic parse the same shape.  Both are embedded by
`parseDate`, returning `none` where Python raises a parse error. -/

def isLeapYear (y : Nat) : Bool :=
  y % 4 == 0 && (y % 100 != 0 || y % 400 == 0)

def daysInMonth (y m : Nat) : Nat :=
  if m = 2 then (if isLeapYear y then 29 else 28)
  else if m = 4 ∨ m = 6 ∨ m = 9 ∨ m = 11 then 30
  else 31

/-- Split a character list at every dash, like Python's `s.split("-")`.  An
empty input yields one empty field. -/
def splitOnDashes : List Char → List (List Char)
  | [] => [[]]
  | c :: cs =>
    match splitOnDashes cs with
    | [] => [[c]]
    | h :: t => if c = '-' then [] :: h :: t else (c :: h) :: t

def digitsToNatAux : List Char → Nat → Option Nat
  | [], acc => some acc
  | c :: cs, acc =>
    if c.isDigit then digitsToNatAux cs (acc * 10 + (c.toNat - 48)) else none

/-- The numeric value of a non-empty all-digit field, `none` otherwise. -/
def digitsToNat (l : List Char) : Option Nat :=
  match l with
  | [] => none
  | _ => digitsToNatAux l 0

def parseDate (s : String) : Option PyDate :=
  match splitOnDashes s.data with
  | [ys, ms, ds] =>
    match digitsToNat ys, digitsToNat ms, digitsToNat ds with
    | some y, some m, some d =>
      if ys.length == 4 && 1 ≤ y
          && 1 ≤ ms.length && ms.length ≤ 2 && 1 ≤ m && m ≤ 12
          && 1 ≤ ds.length && ds.length ≤ 2 && 1 ≤ d && d ≤ daysInMonth y m
      then some ⟨y, m, d⟩
      else none
    | _, _, _ => none
  | _ => none

/-! ## Data model -/

/-- The two-variant attendance status enumeration (`AttendanceStatus`). -/
inductive AttendanceStatus where
  | PRESENT
  | ABSENT
deriving DecidableEq, Repr

/-- The string stored for a status (`AttendanceStatus.value` in Python;
the enum values are "Present" and "Absent"). -/
def AttendanceStatus.value : AttendanceStatus → String
  | .PRESENT => "Present"
  | .ABSENT => "Absent"

/-- An employee-creation payload (`EmployeeCreate`), before or after
pydantic validation (validation trims three of the string fields). -/
structure EmployeeCreate where
  employee_id : String
  full_name : String
  email : String
  department : String
deriving DecidableEq, Repr

/-- A persisted employee document/row.  The storage-assigned identifier
(Mongo ObjectId / SQL autoincrement) is modelled as a Nat drawn from the
store's counter. -/
structure Employee where
  oid : Nat
  employee_id : String
  full_name : String
  email : String
  department : String
deriving DecidableEq, Repr

/-- An attendance-marking payload (`AttendanceCreate`), after pydantic has
parsed `date` into a calendar date and `status` into the enum. -/
structure AttendanceCreate where
  employee_id : String
  date : PyDate
  status : AttendanceStatus
deriving DecidableEq, Repr

/-- A persisted attendance document/row. -/
structure AttendanceDoc where
  oid : Nat
  employee_id : String
  date : PyDate
  status : AttendanceStatus
deriving DecidableEq, Repr

/-- An attendance response record (`Attendance` pydantic model), with the
derived `employee_name` field. -/
structure Attendance where
  oid : Nat
  employee_id : String
  date : PyDate
  status : AttendanceStatus
  employee_name : Option String
deriving DecidableEq, Repr

/-- A per-employee statistics row (`AttendanceStats` pydantic model). -/
structure AttendanceStats where
  employee_id : String
  employee_name : String
  total_present : Nat
  total_absent : Nat
  total_days : Nat
deriving DecidableEq, Repr

/-- The persistent store: the `employees` and `attendance` collections in
insertion order, plus the counter generating storage-assigned ids. -/
structure Store where
  employees : List Employee
  attendance : List AttendanceDoc
  nextId : Nat
deriving DecidableEq, Repr

def emptyStore : Store := ⟨[], [], 0⟩

/-- Outcomes an operation can have besides success:
* `httpException code detail` — an explicitly raised `HTTPException`;
* `requestValidationError` — pydantic/FastAPI input validation failure,
  surfaced as HTTP 422 (the spec's ValidationError);
* `unhandledException descr` — an exception the handler does not catch,
  surfaced by the framework as a generic HTTP 500 server error. -/
inductive ApiError where
  | httpException (code : Nat) (detail : String)
  | requestValidationError
  | unhandledException (descr : String)
deriving DecidableEq, Repr

/-! ## Validators -/

/-- Embedding of the pydantic checks on `EmployeeCreate`: the three `Field`
length bounds run on the raw values, then the `no_empty_strings` validator
rejects whitespace-only values and returns the trimmed string for
`employee_id`, `full_name` and `department`.  `email` is checked for email
syntax by an external library (`EmailStr`); that check is an external
collaborator, out of scope per the spec, and no claim depends on it, so the
field passes through unchanged here. -/
def validateEmployeeCreate (e : EmployeeCreate) : Except ApiError EmployeeCreate :=
  if e.employee_id.length < 1 || 50 < e.employee_id.length then
    .error .requestValidationError
  else if e.full_name.length < 1 || 100 < e.full_name.length then
    .error .requestValidationError
  else if e.department.length < 1 || 100 < e.department.length then
    .error .requestValidationError
  else if (pyStrip e.employee_id).isEmpty || (pyStrip e.full_name).isEmpty
      || (pyStrip e.department).isEmpty then
    .error .requestValidationError
  else
    .ok { employee_id := pyStrip e.employee_id,
          full_name := pyStrip e.full_name,
          email := e.email,
          department := pyStrip e.department }

/-- Embedding of `AttendanceCreate.validate_date`: reject a date strictly
after today (the current date is passed in explicitly). -/
def validate_date (today v : PyDate) : Except ApiError PyDate :=
  if today.lt v then .error .requestValidationError else .ok v

/-- Pydantic validation of a whole `AttendanceCreate` payload: the typed
fields (`employee_id : str` with no extra constraint, `date` already a
parsed calendar date, `status` a member of the enum) plus the
`validate_date` field validator. -/
def validateAttendanceCreate (today : PyDate) (a : AttendanceCreate) :
    Except ApiError AttendanceCreate :=
  match validate_date today a.date with
  | .error e => .error e
  | .ok _ => .ok a

/-! ## Storage lookups -/

/-- `find_one` on the employees collection by `employee_id` (first match in
natural order). -/
def findOneEmployeeByEid (st : Store) (eid : String) : Option Employee :=
  st.employees.find? (fun e => e.employee_id == eid)

/-- `find_one` on the employees collection by `email`. -/
def findOneEmployeeByEmail (st : Store) (email : String) : Option Employee :=
  st.employees.find? (fun e => e.email == email)

/-! ## Handlers: create employee -/

/-- Embedding of `create_employee` in `main.py` (lines 160–170).

The handler performs three separate storage round-trips: two pre-check
`find_one` calls and one `insert_one`.  Under concurrent requests another
create may commit in between, so the store seen by the pre-checks (`preSt`)
and the store whose unique indexes guard the insert (`insSt`) may differ;
a purely sequential call is `create_employeeSeq` below, where they coincide.
The unique indexes on `employee_id` and `email` exist (created in
`lifespan`, lines 111–112); an insert violating them raises
`DuplicateKeyError`, which `create_employee` does not catch. -/
def create_employee (preSt insSt : Store) (employee : EmployeeCreate) :
    Except ApiError (Employee × Store) :=
  if (findOneEmployeeByEid preSt employee.employee_id).isSome then
    .error (.httpException 400 "Employee ID already exists")
  else if (findOneEmployeeByEmail preSt employee.email).isSome then
    .error (.httpException 400 "Email already exists")
  else if insSt.employees.any
      (fun x => x.employee_id == employee.employee_id || x.email == employee.email) then
    .error (.unhandledException "DuplicateKeyError")
  else
    let newEmp : Employee :=
      ⟨insSt.nextId, employee.employee_id, employee.full_name,
        employee.email, employee.department⟩
    .ok (newEmp,
      { insSt with employees := insSt.employees ++ [newEmp],
                   nextId := insSt.nextId + 1 })

/-- `create_employee` as executed by a single request with no interleaved
writer: pre-check and insert see the same store. -/
def create_employeeSeq (st : Store) (employee : EmployeeCreate) :
    Except ApiError (Employee × Store) :=
  create_employee st st employee

/-! ## Handlers: mark attendance (upsert) -/

/-- The composite-key predicate used by `mark_attendance` and by the unique
index on the attendance collection. -/
def attKeyB (eid : String) (d : PyDate) (r : AttendanceDoc) : Bool :=
  r.employee_id == eid && r.date == d

/-- Embedding of `mark_attendance` in `main.py` (lines 180–217): look up the
employee (404 if absent); look up an existing record for (employee_id,
date); if present, `update_one` sets only its `status` and the record is
re-fetched by `_id`; otherwise `insert_one` adds a new record (the unique
index on (employee_id, date) would raise an uncaught `DuplicateKeyError` on
a conflicting insert).  The returned record's `employee_name` comes from
the employee already looked up. -/
def mark_attendance (st : Store) (attendance : AttendanceCreate) :
    Except ApiError (Attendance × Store) :=
  match findOneEmployeeByEid st attendance.employee_id with
  | none => .error (.httpException 404 "Employee not found")
  | some employee =>
    match st.attendance.find? (attKeyB attendance.employee_id attendance.date) with
    | some existing =>
      let updatedList := st.attendance.map (fun r =>
        if r.oid == existing.oid then { r with status := attendance.status } else r)
      match updatedList.find? (fun r => r.oid == existing.oid) with
      | some updated =>
        .ok (⟨updated.oid, updated.employee_id, updated.date, updated.status,
              some employee.full_name⟩,
             { st with attendance := updatedList })
      | none => .error (.unhandledException "TypeError")
    | none =>
      if st.attendance.any (attKeyB attendance.employee_id attendance.date) then
        .error (.unhandledException "DuplicateKeyError")
      else
        let newDoc : AttendanceDoc :=
          ⟨st.nextId, attendance.employee_id, attendance.date, attendance.status⟩
        .ok (⟨newDoc.oid, newDoc.employee_id, newDoc.date, newDoc.status,
              some employee.full_name⟩,
             { st with attendance := st.attendance ++ [newDoc],
                       nextId := st.nextId + 1 })

/-! ## Handlers: list/filter attendance -/

/-- The query filter built by `get_attendance` from the (already parsed)
optional bounds: conjunction of the exact `employee_id` match, `date $gte`
and `date $lte`.  Records are stored at midnight of their date, so the
datetime comparisons the code performs coincide with date comparisons. -/
def matchesQuery (eidFilter : Option String) (dfrom dto : Option PyDate)
    (r : AttendanceDoc) : Bool :=
  (match eidFilter with
   | some v => r.employee_id == v
   | none => true)
  && (match dfrom with
      | some d => d.le r.date
      | none => true)
  && (match dto with
      | some d => r.date.le d
      | none => true)

/-- `main.py` lines 231–237: a date bound is used only when the query string
is truthy (absent or empty means no bound); otherwise it is parsed with
`datetime.strptime(s, "%Y-%m-%d")` inside the handler, and a parse failure
raises a `ValueError` the handler does not catch. -/
def parseBound (o : Option String) : Except ApiError (Option PyDate) :=
  match o with
  | none => .ok none
  | some s =>
    if s.isEmpty then .ok none
    else
      match parseDate s with
      | some d => .ok (some d)
      | none => .error (.unhandledException "ValueError")

/-- The `if employee_id:` truthiness check in both backends: absent or empty
means no filter. -/
def eidFilterOf (employee_id : Option String) : Option String :=
  match employee_id with
  | some s => if s.isEmpty then none else some s
  | none => none

/-- Descending-by-date comparator used for `sort("date", -1)` /
`order_by(date.desc())`: a may precede b when a's date is the later one. -/
def dateDescB (a b : AttendanceDoc) : Bool :=
  b.date.le a.date

/-- Insert a record into a list kept in descending date order. -/
def insertDateDesc (r : AttendanceDoc) : List AttendanceDoc → List AttendanceDoc
  | [] => [r]
  | x :: xs => if dateDescB r x then r :: x :: xs else x :: insertDateDesc r xs

/-- Sorting by date descending, embedding the backend's `sort("date", -1)` /
`order_by(date.desc())`.  The exact order among same-date records is
backend-defined; a concrete stable insertion sort embeds one conforming
choice. -/
def sortByDateDesc (l : List AttendanceDoc) : List AttendanceDoc :=
  l.foldr insertDateDesc []

/-- Embedding of `get_attendance` in `main.py` (lines 220–247): build the
query from the optional filters (parsing the date strings in the handler),
fetch matching records sorted by date descending, and resolve each record's
`employee_name` by a per-record `find_one` on the employees collection,
using null when the employee is missing. -/
def mongoGetAttendance (st : Store) (employee_id : Option String)
    (date_from date_to : Option String) : Except ApiError (List Attendance) :=
  match parseBound date_from with
  | .error e => .error e
  | .ok dfrom =>
    match parseBound date_to with
    | .error e => .error e
    | .ok dto =>
      let docs := sortByDateDesc (st.attendance.filter
        (matchesQuery (eidFilterOf employee_id) dfrom dto))
      .ok (docs.map (fun r =>
        ⟨r.oid, r.employee_id, r.date, r.status,
          (findOneEmployeeByEid st r.employee_id).map (fun e => e.full_name)⟩))

/-- Embedding of `get_attendance` in `test.py` (lines 228–251): the query
joins the employees table (an inner join, so records whose employee row is
missing are dropped), applies the same conjunctive filters, orders by date
descending and reads `employee_name` through the join relationship.  The
date parameters are already parsed here; FastAPI parses them before the
handler runs (see `sqlGetAttendanceRoute`). -/
def sqlGetAttendance (st : Store) (employee_id : Option String)
    (date_from date_to : Option PyDate) : List Attendance :=
  let joined := st.attendance.filter
    (fun r => (findOneEmployeeByEid st r.employee_id).isSome)
  let docs := sortByDateDesc (joined.filter
    (matchesQuery (eidFilterOf employee_id) date_from date_to))
  docs.map (fun r =>
    ⟨r.oid, r.employee_id, r.date, r.status,
      (findOneEmployeeByEid st r.employee_id).map (fun e => e.full_name)⟩)

/-- FastAPI parsing of an `Optional[date]` query parameter in the SQL
backend: a provided string that is not a valid calendar date fails request
validation (HTTP 422) before the handler runs. -/
def parseParamDate (o : Option String) : Except ApiError (Option PyDate) :=
  match o with
  | none => .ok none
  | some s =>
    match parseDate s with
    | some d => .ok (some d)
    | none => .error .requestValidationError

/-- The SQL backend's list-attendance route as reached over HTTP: parameter
parsing, then the handler. -/
def sqlGetAttendanceRoute (st : Store) (employee_id : Option String)
    (date_from date_to : Option String) : Except ApiError (List Attendance) :=
  match parseParamDate date_from with
  | .error e => .error e
  | .ok dfrom =>
    match parseParamDate date_to with
    | .error e => .error e
    | .ok dto => .ok (sqlGetAttendance st employee_id dfrom dto)

/-! ## Handlers: attendance stats -/

/-- Embedding of the `$group` aggregation pipeline plus the
`attendance_stats` dict in `main.py` (lines 252–275): for a key that occurs
in the collection, the dict holds the counts of that group's records with
stored status string "Present", with "Absent", and the group size
(`$sum: 1`); a key with no records is absent from the dict. -/
def aggLookup (atts : List AttendanceDoc) (eid : String) :
    Option (Nat × Nat × Nat) :=
  if atts.any (fun r => r.employee_id == eid) then
    some (atts.countP (fun r => r.employee_id == eid && r.status.value == "Present"),
          atts.countP (fun r => r.employee_id == eid && r.status.value == "Absent"),
          atts.countP (fun r => r.employee_id == eid))
  else none

/-- Embedding of `get_attendance_stats` in `main.py` (lines 249–296): one
stat per employee, using the aggregation group for that employee's id when
it exists and zero counts otherwise. -/
def mongoGetAttendanceStats (st : Store) : List AttendanceStats :=
  st.employees.map (fun employee =>
    match aggLookup st.attendance employee.employee_id with
    | some (p, a, d) =>
      ⟨employee.employee_id, employee.full_name, p, a, d⟩
    | none =>
      ⟨employee.employee_id, employee.full_name, 0, 0, 0⟩)

/-- Embedding of `get_attendance_stats` in `test.py` (lines 253–278): one
count query pair per employee (records with that id and status Present,
respectively Absent), with `total_days` computed as their sum. -/
def sqlGetAttendanceStats (st : Store) : List AttendanceStats :=
  st.employees.map (fun emp =>
    let total_present := st.attendance.countP
      (fun r => r.employee_id == emp.employee_id && r.status == AttendanceStatus.PRESENT)
    let total_absent := st.attendance.countP
      (fun r => r.employee_id == emp.employee_id && r.status == AttendanceStatus.ABSENT)
    ⟨emp.employee_id, emp.full_name, total_present, total_absent,
      total_present + total_absent⟩)

/-! ## Reachable states of the MongoDB backend

The only mutating operations are create-employee and mark-attendance (the
MongoDB backend has no delete).  A failed operation leaves the store
unchanged (every handler issues at most one mutating storage call, after
all its checks). -/

inductive Op where
  | createEmp (e : EmployeeCreate)
  | markAtt (a : AttendanceCreate)
deriving DecidableEq, Repr

def applyOp (st : Store) : Op → Store
  | .createEmp e =>
    match create_employeeSeq st e with
    | .ok (_, st') => st'
    | .error _ => st
  | .markAtt a =>
    match mark_attendance st a with
    | .ok (_, st') => st'
    | .error _ => st

/-- The store produced by running a sequence of API operations from the
initial empty store. -/
def runOps (ops : List Op) : Store :=
  ops.foldl applyOp emptyStore

/-- Two attendance records collide on the composite natural key. -/
def sameKey (r1 r2 : AttendanceDoc) : Prop :=
  r1.employee_id = r2.employee_id ∧ r1.date = r2.date

instance : ∀ r1 r2 : AttendanceDoc, Decidable (sameKey r1 r2) :=
  fun _ _ => by unfold sameKey; infer_instance

/-- The C1 invariant: at most one attendance record per (employee_id, date)
pair. -/
def attKeyUnique (st : Store) : Prop :=
  st.attendance.Pairwise (fun r1 r2 => ¬ sameKey r1 r2)

instance (st : Store) : Decidable (attKeyUnique st) := by
  unfold attKeyUnique; infer_instance

end HRMS

deriving instance DecidableEq for Except

namespace HRMS

/-! ## Order lemmas for dates -/

theorem PyDate.lt_iff (a b : PyDate) :
    a.lt b = true ↔
      (a.year < b.year ∨ (a.year = b.year ∧
        (a.month < b.month ∨ (a.month = b.month ∧ a.day < b.day)))) := by
  simp [PyDate.lt]

theorem PyDate.le_iff (a b : PyDate) :
    a.le b = true ↔
      (a.year < b.year ∨ (a.year = b.year ∧
        (a.month < b.month ∨ (a.month = b.month ∧ a.day ≤ b.day)))) := by
  simp [PyDate.le]

theorem PyDate.le_trans {a b c : PyDate}
    (hab : a.le b = true) (hbc : b.le c = true) : a.le c = true := by
  rw [PyDate.le_iff] at *
  omega

theorem PyDate.le_total (a b : PyDate) : a.le b = true ∨ b.le a = true := by
  rw [PyDate.le_iff, PyDate.le_iff]
  omega

theorem PyDate.lt_eq_false_of_le {a b : PyDate}
    (h : a.le b = true) : b.lt a = false := by
  rw [PyDate.le_iff] at h
  rw [Bool.eq_false_iff, Ne, PyDate.lt_iff]
  omega

theorem dateDescB_trans {a b c : AttendanceDoc}
    (h1 : dateDescB a b = true) (h2 : dateDescB b c = true) :
    dateDescB a c = true :=
  PyDate.le_trans h2 h1

/-! ## Sorting lemmas -/

theorem insertDateDesc_perm (r : AttendanceDoc) (l : List AttendanceDoc) :
    (insertDateDesc r l).Perm (r :: l) := by
  induction l with
  | nil => simp [insertDateDesc]
  | cons x xs ih =>
    unfold insertDateDesc
    split
    · exact List.Perm.refl _
    · exact (ih.cons x).trans (List.Perm.swap r x xs)

theorem sortByDateDesc_perm (l : List AttendanceDoc) :
    (sortByDateDesc l).Perm l := by
  induction l with
  | nil => simp [sortByDateDesc]
  | cons x xs ih =>
    unfold sortByDateDesc at *
    simp only [List.foldr_cons]
    exact (insertDateDesc_perm x _).trans (ih.cons x)

theorem insertDateDesc_pairwise {r : AttendanceDoc} {l : List AttendanceDoc}
    (h : l.Pairwise (fun a b => dateDescB a b = true)) :
    (insertDateDesc r l).Pairwise (fun a b => dateDescB a b = true) := by
  induction l with
  | nil => simp [insertDateDesc]
  | cons x xs ih =>
    obtain ⟨hx, hxs⟩ := List.pairwise_cons.mp h
    unfold insertDateDesc
    split
    · rename_i h1
      refine List.pairwise_cons.mpr ⟨?_, h⟩
      intro y hy
      rcases List.mem_cons.mp hy with rfl | hy'
      · exact h1
      · exact dateDescB_trans h1 (hx y hy')
    · rename_i h1
      refine List.pairwise_cons.mpr ⟨?_, ih hxs⟩
      intro y hy
      rcases List.mem_cons.mp ((insertDateDesc_perm r xs).mem_iff.mp hy) with rfl | hy'
      · rcases PyDate.le_total x.date y.date with hle | hle
        · exact absurd hle h1
        · exact hle
      · exact hx y hy'

theorem sortByDateDesc_sorted (l : List AttendanceDoc) :
    (sortByDateDesc l).Pairwise (fun a b => dateDescB a b = true) := by
  induction l with
  | nil => simp [sortByDateDesc]
  | cons x xs ih =>
    unfold sortByDateDesc at *
    simp only [List.foldr_cons]
    exact insertDateDesc_pairwise ih

/-! ## Composite-key lemmas -/

theorem attKeyB_eq_true {eid : String} {d : PyDate} {r : AttendanceDoc} :
    attKeyB eid d r = true ↔ (r.employee_id = eid ∧ r.date = d) := by
  simp [attKeyB]

theorem filter_of_pairwise_key {l : List AttendanceDoc} {eid : String}
    {d : PyDate} {ex : AttendanceDoc}
    (hp : l.Pairwise (fun r1 r2 => ¬ sameKey r1 r2))
    (hmem : ex ∈ l) (hkey : attKeyB eid d ex = true) :
    l.filter (attKeyB eid d) = [ex] := by
  induction l with
  | nil => cases hmem
  | cons x xs ih =>
    obtain ⟨hx, hxs⟩ := List.pairwise_cons.mp hp
    rcases List.mem_cons.mp hmem with rfl | hex
    · rw [List.filter_cons, if_pos hkey]
      have hnil : xs.filter (attKeyB eid d) = [] := by
        rw [List.filter_eq_nil_iff]
        intro y hy hkeyy
        exact hx y hy ⟨(attKeyB_eq_true.mp hkey).1.trans (attKeyB_eq_true.mp hkeyy).1.symm,
          (attKeyB_eq_true.mp hkey).2.trans (attKeyB_eq_true.mp hkeyy).2.symm⟩
      rw [hnil]
    · have hkx : ¬ attKeyB eid d x = true := by
        intro hkeyx
        exact hx ex hex ⟨(attKeyB_eq_true.mp hkeyx).1.trans (attKeyB_eq_true.mp hkey).1.symm,
          (attKeyB_eq_true.mp hkeyx).2.trans (attKeyB_eq_true.mp hkey).2.symm⟩
      rw [List.filter_cons, if_neg hkx]
      exact ih hxs hex

/-! ## Handler specification lemmas -/

theorem create_employee_ok_spec {pre ins : Store} {e : EmployeeCreate}
    {emp : Employee} {st' : Store}
    (h : create_employee pre ins e = .ok (emp, st')) :
    st'.employees = ins.employees ++ [emp] ∧ st'.attendance = ins.attendance ∧
      emp.employee_id = e.employee_id ∧ emp.full_name = e.full_name ∧
      emp.email = e.email ∧ emp.department = e.department := by
  unfold create_employee at h
  split_ifs at h
  injection h with h
  injection h with h1 h2
  subst h1 h2
  exact ⟨rfl, rfl, rfl, rfl, rfl, rfl⟩

theorem create_employee_conflict {pre ins : Store} {e : EmployeeCreate}
    (hdup : ∃ x ∈ pre.employees, x.employee_id = e.employee_id) :
    create_employee pre ins e = .error (.httpException 400 "Employee ID already exists") := by
  unfold create_employee
  have hsome : (findOneEmployeeByEid pre e.employee_id).isSome = true := by
    rw [findOneEmployeeByEid, List.find?_isSome]
    obtain ⟨x, hx, hxe⟩ := hdup
    exact ⟨x, hx, by simp [hxe]⟩
  rw [if_pos hsome]

theorem mark_attendance_ok_spec {st : Store} {a : AttendanceCreate}
    {att : Attendance} {st' : Store}
    (hinv : attKeyUnique st)
    (h : mark_attendance st a = .ok (att, st')) :
    (st'.attendance.filter (attKeyB a.employee_id a.date)).map (fun r => r.status)
        = [a.status]
      ∧ attKeyUnique st' ∧ st'.employees = st.employees := by
  unfold mark_attendance at h
  cases hemp : findOneEmployeeByEid st a.employee_id with
  | none => rw [hemp] at h; cases h
  | some employee =>
    simp only [hemp] at h
    cases hfind : st.attendance.find? (attKeyB a.employee_id a.date) with
    | some existing =>
      simp only [hfind] at h
      cases hfind2 : (st.attendance.map (fun r =>
          if r.oid == existing.oid then { r with status := a.status } else r)).find?
          (fun r => r.oid == existing.oid) with
      | none => simp only [hfind2] at h; cases h
      | some updated =>
        simp only [hfind2, Except.ok.injEq, Prod.mk.injEq] at h
        obtain ⟨h1, h2⟩ := h
        subst h2
        have hpres : ∀ r : AttendanceDoc,
            attKeyB a.employee_id a.date
                (if r.oid == existing.oid then { r with status := a.status } else r)
              = attKeyB a.employee_id a.date r := by
          intro r
          by_cases hr : (r.oid == existing.oid) = true <;> simp [hr, attKeyB]
        refine ⟨?_, ?_, rfl⟩
        · show ((st.attendance.map _).filter _).map _ = _
          rw [List.filter_map]
          have hcomp : (attKeyB a.employee_id a.date ∘ fun r =>
              if r.oid == existing.oid then { r with status := a.status } else r)
              = attKeyB a.employee_id a.date := funext fun r => hpres r
          rw [hcomp,
            filter_of_pairwise_key hinv (List.mem_of_find?_eq_some hfind)
              (List.find?_some hfind)]
          simp
        · show List.Pairwise _ (st.attendance.map _)
          refine List.Pairwise.map _ ?_ hinv
          intro x y hxy hk
          apply hxy
          revert hk
          unfold sameKey
          by_cases hx : (x.oid == existing.oid) = true <;>
            by_cases hy : (y.oid == existing.oid) = true <;>
            simp [hx, hy]
    | none =>
      have hnone := List.find?_eq_none.mp hfind
      have hany : st.attendance.any (attKeyB a.employee_id a.date) = false :=
        List.any_eq_false.mpr hnone
      simp only [hfind, hany, Bool.false_eq_true, if_false, Except.ok.injEq,
        Prod.mk.injEq] at h
      obtain ⟨h1, h2⟩ := h
      subst h2
      refine ⟨?_, ?_, rfl⟩
      · show ((st.attendance ++ [_]).filter _).map _ = _
        rw [List.filter_append]
        have hnil : st.attendance.filter (attKeyB a.employee_id a.date) = [] :=
          List.filter_eq_nil_iff.mpr hnone
        rw [hnil]
        simp [attKeyB]
      · show List.Pairwise _ (st.attendance ++ [_])
        rw [List.pairwise_append]
        refine ⟨hinv, List.pairwise_singleton _ _, ?_⟩
        intro x hx y hy hkey
        rcases List.mem_singleton.mp hy with rfl
        exact hnone x hx (attKeyB_eq_true.mpr ⟨hkey.1, hkey.2⟩)

theorem applyOp_preserves {st : Store} (op : Op) (h : attKeyUnique st) :
    attKeyUnique (applyOp st op) := by
  cases op with
  | createEmp e =>
    cases hc : create_employeeSeq st e with
    | error err => simp [applyOp, hc]; exact h
    | ok p =>
      obtain ⟨emp, st2⟩ := p
      simp only [applyOp, hc]
      have hc2 : create_employee st st e = .ok (emp, st2) := hc
      unfold attKeyUnique
      rw [(create_employee_ok_spec hc2).2.1]
      exact h
  | markAtt a =>
    cases hm : mark_attendance st a with
    | error err => simp [applyOp, hm]; exact h
    | ok p =>
      obtain ⟨att, st2⟩ := p
      simp only [applyOp, hm]
      exact (mark_attendance_ok_spec h hm).2.1

/-! ## Stats lemmas -/

theorem status_value_present (s : AttendanceStatus) :
    (s.value == "Present") = (s == AttendanceStatus.PRESENT) := by
  cases s <;> rfl

theorem status_value_absent (s : AttendanceStatus) :
    (s.value == "Absent") = (s == AttendanceStatus.ABSENT) := by
  cases s <;> rfl

theorem count_eid_split (l : List AttendanceDoc) (eid : String) :
    l.countP (fun r => r.employee_id == eid)
      = l.countP (fun r => r.employee_id == eid && r.status == AttendanceStatus.PRESENT)
        + l.countP (fun r => r.employee_id == eid && r.status == AttendanceStatus.ABSENT) := by
  induction l with
  | nil => rfl
  | cons r rs ih =>
    simp only [List.countP_cons]
    cases hs : r.status <;> cases he : r.employee_id == eid <;>
      simp [hs, he, ih] <;> omega

theorem mongo_stats_spec (st : Store) :
    mongoGetAttendanceStats st = st.employees.map (fun e =>
      { employee_id := e.employee_id
        employee_name := e.full_name
        total_present := st.attendance.countP
          (fun r => r.employee_id == e.employee_id && r.status == AttendanceStatus.PRESENT)
        total_absent := st.attendance.countP
          (fun r => r.employee_id == e.employee_id && r.status == AttendanceStatus.ABSENT)
        total_days := st.attendance.countP
            (fun r => r.employee_id == e.employee_id && r.status == AttendanceStatus.PRESENT)
          + st.attendance.countP
            (fun r => r.employee_id == e.employee_id && r.status == AttendanceStatus.ABSENT) }) := by
  unfold mongoGetAttendanceStats
  apply List.map_congr_left
  intro e he
  by_cases hany : st.attendance.any (fun r => r.employee_id == e.employee_id) = true
  · rw [aggLookup, if_pos hany]
    have hp : st.attendance.countP
        (fun r => r.employee_id == e.employee_id && r.status.value == "Present")
        = st.attendance.countP
          (fun r => r.employee_id == e.employee_id && r.status == AttendanceStatus.PRESENT) :=
      List.countP_congr (fun r _ => by rw [status_value_present])
    have ha : st.attendance.countP
        (fun r => r.employee_id == e.employee_id && r.status.value == "Absent")
        = st.attendance.countP
          (fun r => r.employee_id == e.employee_id && r.status == AttendanceStatus.ABSENT) :=
      List.countP_congr (fun r _ => by rw [status_value_absent])
    rw [hp, ha, count_eid_split]
  · have hany' : st.attendance.any (fun r => r.employee_id == e.employee_id) = false :=
      Bool.eq_false_iff.mpr hany
    rw [aggLookup, if_neg hany]
    have hz : ∀ p : AttendanceDoc → Bool,
        st.attendance.countP (fun r => r.employee_id == e.employee_id && p r) = 0 := by
      intro p
      rw [List.countP_eq_zero]
      intro r hr
      have := List.any_eq_false.mp hany' r hr
      simp only [Bool.and_eq_true]
      intro hcon
      exact this hcon.1
    rw [hz (fun r => r.status == AttendanceStatus.PRESENT),
      hz (fun r => r.status == AttendanceStatus.ABSENT)]

theorem runOps_attKeyUnique (ops : List Op) : attKeyUnique (runOps ops) := by
  have hgen : ∀ (ops : List Op) (st : Store),
      attKeyUnique st → attKeyUnique (ops.foldl applyOp st) := by
    intro ops
    induction ops with
    | nil => intro st h; exact h
    | cons op rest ih => intro st h; exact ih _ (applyOp_preserves op h)
  exact hgen ops emptyStore List.Pairwise.nil

/-! ## List-attendance lemmas -/

theorem PyDate.lt_irrefl (a : PyDate) : a.lt a = false := by
  rw [Bool.eq_false_iff, Ne, PyDate.lt_iff]
  omega

theorem parseDate_empty : parseDate "" = none := rfl

theorem isEmpty_false_of_parse {s : String} {d : PyDate}
    (h : parseDate s = some d) : s.isEmpty = false := by
  cases hs : s.isEmpty
  · rfl
  · rw [String.isEmpty_iff] at hs
    rw [hs, parseDate_empty] at h
    cases h

theorem mongoGetAttendance_parsed_eq (st : Store) (eid : Option String)
    {s1 s2 : String} {d1 d2 : PyDate}
    (h1 : parseDate s1 = some d1) (h2 : parseDate s2 = some d2) :
    mongoGetAttendance st eid (some s1) (some s2)
      = .ok ((sortByDateDesc (st.attendance.filter
          (matchesQuery (eidFilterOf eid) (some d1) (some d2)))).map (fun r =>
            ⟨r.oid, r.employee_id, r.date, r.status,
              (findOneEmployeeByEid st r.employee_id).map (fun e => e.full_name)⟩)) := by
  unfold mongoGetAttendance parseBound
  simp only [isEmpty_false_of_parse h1, isEmpty_false_of_parse h2,
    Bool.false_eq_true, if_false, h1, h2]

theorem mongoGetAttendance_ok_shape {st : Store} {eid df dt : Option String}
    {rs : List Attendance}
    (h : mongoGetAttendance st eid df dt = .ok rs) :
    ∃ docs : List AttendanceDoc, rs = docs.map (fun r =>
      ⟨r.oid, r.employee_id, r.date, r.status,
        (findOneEmployeeByEid st r.employee_id).map (fun e => e.full_name)⟩) := by
  unfold mongoGetAttendance at h
  cases hdf : parseBound df with
  | error e => rw [hdf] at h; cases h
  | ok dfrom =>
    cases hdt : parseBound dt with
    | error e => rw [hdf, hdt] at h; cases h
    | ok dto =>
      simp only [hdf, hdt, Except.ok.injEq] at h
      exact ⟨_, h.symm⟩

/-! ## Claim theorems -/

/-- C1: every store state reachable through the API operations keeps at most
one attendance record per (employee_id, date) pair, and marking attendance
twice for the same existing employee and date (with statuses s1 then s2)
leaves exactly one record for that pair, whose status is s2, the status of
the second (latest) call. -/
theorem claim_C1_attendance_pair_unique_upsert :
    (∀ ops : List Op, attKeyUnique (runOps ops)) ∧
    (∀ (st : Store) (eid : String) (d : PyDate) (s1 s2 : AttendanceStatus)
        (att1 att2 : Attendance) (st1 st2 : Store),
      attKeyUnique st →
      mark_attendance st ⟨eid, d, s1⟩ = .ok (att1, st1) →
      mark_attendance st1 ⟨eid, d, s2⟩ = .ok (att2, st2) →
      (st2.attendance.filter (attKeyB eid d)).map (fun r => r.status) = [s2]) := by
  refine ⟨runOps_attKeyUnique, ?_⟩
  intro st eid d s1 s2 att1 att2 st1 st2 hinv h1 h2
  have m1 := mark_attendance_ok_spec hinv h1
  exact (mark_attendance_ok_spec m1.2.1 h2).1

/-- Witness for C1 at a concrete run: create employee E1, mark 2024-01-01
Present, then Absent; the final store holds exactly one record for the pair
and its status is Absent. -/
theorem claim_C1_witness :
    (attKeyUnique (⟨[⟨0, "E1", "Alice", "a@x.com", "Eng"⟩], [], 1⟩ : Store)
      ∧ mark_attendance ⟨[⟨0, "E1", "Alice", "a@x.com", "Eng"⟩], [], 1⟩
          ⟨"E1", ⟨2024, 1, 1⟩, .PRESENT⟩
        = .ok (⟨1, "E1", ⟨2024, 1, 1⟩, .PRESENT, some "Alice"⟩,
            ⟨[⟨0, "E1", "Alice", "a@x.com", "Eng"⟩],
              [⟨1, "E1", ⟨2024, 1, 1⟩, .PRESENT⟩], 2⟩)
      ∧ mark_attendance ⟨[⟨0, "E1", "Alice", "a@x.com", "Eng"⟩],
            [⟨1, "E1", ⟨2024, 1, 1⟩, .PRESENT⟩], 2⟩
          ⟨"E1", ⟨2024, 1, 1⟩, .ABSENT⟩
        = .ok (⟨1, "E1", ⟨2024, 1, 1⟩, .ABSENT, some "Alice"⟩,
            ⟨[⟨0, "E1", "Alice", "a@x.com", "Eng"⟩],
              [⟨1, "E1", ⟨2024, 1, 1⟩, .ABSENT⟩], 2⟩))
    ∧ ((⟨[⟨0, "E1", "Alice", "a@x.com", "Eng"⟩],
          [⟨1, "E1", ⟨2024, 1, 1⟩, .ABSENT⟩], 2⟩ : Store).attendance.filter
        (attKeyB "E1" ⟨2024, 1, 1⟩)).map (fun r => r.status) = [.ABSENT] :=
  ⟨⟨by decide, by decide, by decide⟩,
    claim_C1_attendance_pair_unique_upsert.2
      ⟨[⟨0, "E1", "Alice", "a@x.com", "Eng"⟩], [], 1⟩ "E1" ⟨2024, 1, 1⟩
      .PRESENT .ABSENT
      ⟨1, "E1", ⟨2024, 1, 1⟩, .PRESENT, some "Alice"⟩
      ⟨1, "E1", ⟨2024, 1, 1⟩, .ABSENT, some "Alice"⟩
      ⟨[⟨0, "E1", "Alice", "a@x.com", "Eng"⟩],
        [⟨1, "E1", ⟨2024, 1, 1⟩, .PRESENT⟩], 2⟩
      ⟨[⟨0, "E1", "Alice", "a@x.com", "Eng"⟩],
        [⟨1, "E1", ⟨2024, 1, 1⟩, .ABSENT⟩], 2⟩
      (by decide) (by decide) (by decide)⟩

/-- C2: the sequential duplicate path does raise ConflictError (HTTP 400,
first conjunct), but when the duplicate is only seen by the unique index at
insert time — pre-checks ran against a snapshot without the duplicate, as
under a concurrent identical create — the handler has no translation around
insert_one, so the DuplicateKeyError escapes as an unhandled exception
(HTTP 500) instead of the ConflictError the claim asserts (second
conjunct). -/
theorem claim_C2_race_duplicate_unhandled :
    (create_employeeSeq ⟨[⟨0, "E1", "Alice", "a@x.com", "Eng"⟩], [], 1⟩
        ⟨"E1", "Bob", "b@y.com", "Sales"⟩
      = .error (.httpException 400 "Employee ID already exists")) ∧
    (create_employee emptyStore ⟨[⟨0, "E1", "Alice", "a@x.com", "Eng"⟩], [], 1⟩
        ⟨"E1", "Alice", "a@x.com", "Eng"⟩
      = .error (.unhandledException "DuplicateKeyError")) :=
  ⟨by decide, by decide⟩

/-- C3: the MongoDB stats operation emits exactly one stat per stored
employee, whose present/absent fields count that employee's records with the
matching status and whose total_days is their sum; an employee with no
attendance records appears with all counts zero. -/
theorem claim_C3_stats_per_employee :
    (∀ st : Store, mongoGetAttendanceStats st = st.employees.map (fun e =>
      { employee_id := e.employee_id
        employee_name := e.full_name
        total_present := st.attendance.countP
          (fun r => r.employee_id == e.employee_id && r.status == AttendanceStatus.PRESENT)
        total_absent := st.attendance.countP
          (fun r => r.employee_id == e.employee_id && r.status == AttendanceStatus.ABSENT)
        total_days := st.attendance.countP
            (fun r => r.employee_id == e.employee_id && r.status == AttendanceStatus.PRESENT)
          + st.attendance.countP
            (fun r => r.employee_id == e.employee_id && r.status == AttendanceStatus.ABSENT) }))
    ∧ (∀ (st : Store) (e : Employee), e ∈ st.employees →
        (∀ r ∈ st.attendance, r.employee_id ≠ e.employee_id) →
        (⟨e.employee_id, e.full_name, 0, 0, 0⟩ : AttendanceStats)
          ∈ mongoGetAttendanceStats st) := by
  refine ⟨mongo_stats_spec, ?_⟩
  intro st e he hzero
  rw [mongo_stats_spec]
  have hz : ∀ p : AttendanceDoc → Bool,
      st.attendance.countP (fun r => r.employee_id == e.employee_id && p r) = 0 := by
    intro p
    rw [List.countP_eq_zero]
    intro r hr
    simp only [Bool.and_eq_true, beq_iff_eq, not_and]
    intro hcon
    exact absurd hcon (hzero r hr)
  refine List.mem_map.mpr ⟨e, he, ?_⟩
  rw [hz (fun r => r.status == AttendanceStatus.PRESENT),
    hz (fun r => r.status == AttendanceStatus.ABSENT)]

/-- Witness for C3 at a concrete store: employee E2 has no attendance
records and appears in the stats with all counts zero. -/
theorem claim_C3_witness :
    ((⟨0, "E2", "Bob", "b@y.com", "Sales"⟩ : Employee)
        ∈ (⟨[⟨0, "E2", "Bob", "b@y.com", "Sales"⟩],
            [⟨1, "E1", ⟨2024, 1, 1⟩, .PRESENT⟩], 2⟩ : Store).employees
      ∧ (∀ r ∈ (⟨[⟨0, "E2", "Bob", "b@y.com", "Sales"⟩],
            [⟨1, "E1", ⟨2024, 1, 1⟩, .PRESENT⟩], 2⟩ : Store).attendance,
          r.employee_id ≠ "E2"))
    ∧ (⟨"E2", "Bob", 0, 0, 0⟩ : AttendanceStats)
        ∈ mongoGetAttendanceStats ⟨[⟨0, "E2", "Bob", "b@y.com", "Sales"⟩],
            [⟨1, "E1", ⟨2024, 1, 1⟩, .PRESENT⟩], 2⟩ :=
  ⟨⟨by decide, by decide⟩,
    claim_C3_stats_per_employee.2
      ⟨[⟨0, "E2", "Bob", "b@y.com", "Sales"⟩],
        [⟨1, "E1", ⟨2024, 1, 1⟩, .PRESENT⟩], 2⟩
      ⟨0, "E2", "Bob", "b@y.com", "Sales"⟩ (by decide) (by decide)⟩

/-- C4: on every store contents, the MongoDB backend's single-pass
aggregation stats and the SQL backend's per-employee count-query stats
produce the same list of stats (hence the same multiset). -/
theorem claim_C4_stats_backends_agree :
    ∀ st : Store, mongoGetAttendanceStats st = sqlGetAttendanceStats st := by
  intro st
  rw [mongo_stats_spec]
  rfl

/-- C5: marking attendance with an employee_id that matches no stored
employee fails with NotFoundError (HTTP 404) and leaves the store
unchanged. -/
theorem claim_C5_unknown_employee_404 :
    ∀ (st : Store) (a : AttendanceCreate),
      (∀ e ∈ st.employees, e.employee_id ≠ a.employee_id) →
      mark_attendance st a = .error (.httpException 404 "Employee not found")
        ∧ applyOp st (.markAtt a) = st := by
  intro st a h
  have hfind : findOneEmployeeByEid st a.employee_id = none := by
    rw [findOneEmployeeByEid, List.find?_eq_none]
    intro x hx
    simp only [beq_iff_eq]
    exact h x hx
  have hmark : mark_attendance st a
      = .error (.httpException 404 "Employee not found") := by
    unfold mark_attendance
    rw [hfind]
  exact ⟨hmark, by simp [applyOp, hmark]⟩

/-- Witness for C5: marking attendance for E2 in a store holding only E1
yields the 404 error and the unchanged store. -/
theorem claim_C5_witness :
    (∀ e ∈ (⟨[⟨0, "E1", "Alice", "a@x.com", "Eng"⟩], [], 1⟩ : Store).employees,
      e.employee_id ≠ "E2")
    ∧ (mark_attendance ⟨[⟨0, "E1", "Alice", "a@x.com", "Eng"⟩], [], 1⟩
          ⟨"E2", ⟨2024, 1, 1⟩, .PRESENT⟩
        = .error (.httpException 404 "Employee not found")
      ∧ applyOp ⟨[⟨0, "E1", "Alice", "a@x.com", "Eng"⟩], [], 1⟩
          (.markAtt ⟨"E2", ⟨2024, 1, 1⟩, .PRESENT⟩)
        = ⟨[⟨0, "E1", "Alice", "a@x.com", "Eng"⟩], [], 1⟩) :=
  ⟨by decide,
    claim_C5_unknown_employee_404 ⟨[⟨0, "E1", "Alice", "a@x.com", "Eng"⟩], [], 1⟩
      ⟨"E2", ⟨2024, 1, 1⟩, .PRESENT⟩ (by decide)⟩

/-- C6: in the MongoDB backend a malformed date-range string makes the
in-handler strptime call raise a ValueError that nothing catches, so the
request fails with a generic server error (HTTP 500), not the
ValidationError (HTTP 422) the claim asserts (first two conjuncts, a
non-date string and an out-of-range calendar date); the SQL backend, whose
route declares the parameters as dates, does fail with ValidationError
(third conjunct). -/
theorem claim_C6_malformed_date_not_422 :
    (mongoGetAttendance emptyStore none (some "not-a-date") none
      = .error (.unhandledException "ValueError")) ∧
    (mongoGetAttendance emptyStore none none (some "2024-02-30")
      = .error (.unhandledException "ValueError")) ∧
    (sqlGetAttendanceRoute emptyStore none (some "not-a-date") none
      = .error .requestValidationError) :=
  ⟨by decide, by decide, by decide⟩

/-- C7: with both range bounds given as valid date strings, list-attendance
returns exactly (as a permutation, projected on the stored fields) the
records whose employee_id matches the filter (when one is given) and whose
date lies in the inclusive range, sorted by date descending; an inverted
range yields the empty list rather than an error. -/
theorem claim_C7_conjunctive_filters_sorted :
    ∀ (st : Store) (eid : Option String) (s1 s2 : String) (d1 d2 : PyDate)
      (rs : List Attendance),
      eid ≠ some "" →
      parseDate s1 = some d1 →
      parseDate s2 = some d2 →
      mongoGetAttendance st eid (some s1) (some s2) = .ok rs →
      ((rs.map (fun r => (r.oid, r.employee_id, r.date, r.status))).Perm
          ((st.attendance.filter (fun r =>
              (match eid with | some v => r.employee_id == v | none => true)
              && d1.le r.date && r.date.le d2)).map
            (fun r => (r.oid, r.employee_id, r.date, r.status)))
        ∧ rs.Pairwise (fun x y => y.date.le x.date = true)
        ∧ (d2.lt d1 = true → rs = [])) := by
  intro st eid s1 s2 d1 d2 rs hne h1 h2 hok
  rw [mongoGetAttendance_parsed_eq st eid h1 h2] at hok
  injection hok with hok
  subst hok
  have hpred : matchesQuery (eidFilterOf eid) (some d1) (some d2)
      = (fun r => (match eid with | some v => r.employee_id == v | none => true)
          && d1.le r.date && r.date.le d2) := by
    funext r
    unfold matchesQuery eidFilterOf
    cases eid with
    | none => rfl
    | some v =>
      have hv : v.isEmpty = false := by
        cases hvv : v.isEmpty
        · rfl
        · rw [String.isEmpty_iff] at hvv
          exact absurd (by rw [hvv]) hne
      simp only [hv, Bool.false_eq_true, if_false]
  rw [hpred]
  refine ⟨?_, ?_, ?_⟩
  · rw [List.map_map]
    exact (sortByDateDesc_perm _).map _
  · exact List.Pairwise.map _ (fun a b h => h) (sortByDateDesc_sorted _)
  · intro hlt
    have hnil : st.attendance.filter (fun r =>
        (match eid with | some v => r.employee_id == v | none => true)
        && d1.le r.date && r.date.le d2) = [] := by
      rw [List.filter_eq_nil_iff]
      intro r hr hp
      simp only [Bool.and_eq_true] at hp
      obtain ⟨⟨_, hge⟩, hle⟩ := hp
      have hfalse := PyDate.lt_eq_false_of_le (PyDate.le_trans hge hle)
      rw [hfalse] at hlt
      cases hlt
    rw [hnil]
    rfl

/-- Witness for C7: a store with three records, no employee filter, range
2024-01-01..2024-01-03. -/
theorem claim_C7_witness :
    ((some "2024-01-01" ≠ some "")
      ∧ parseDate "2024-01-01" = some ⟨2024, 1, 1⟩
      ∧ parseDate "2024-01-03" = some ⟨2024, 1, 3⟩
      ∧ mongoGetAttendance
          ⟨[⟨0, "E1", "Alice", "a@x.com", "Eng"⟩],
            [⟨1, "E1", ⟨2024, 1, 1⟩, .PRESENT⟩, ⟨2, "E1", ⟨2024, 1, 3⟩, .ABSENT⟩,
              ⟨3, "E2", ⟨2024, 1, 2⟩, .PRESENT⟩], 4⟩
          none (some "2024-01-01") (some "2024-01-03")
        = .ok [⟨2, "E1", ⟨2024, 1, 3⟩, .ABSENT, some "Alice"⟩,
            ⟨3, "E2", ⟨2024, 1, 2⟩, .PRESENT, none⟩,
            ⟨1, "E1", ⟨2024, 1, 1⟩, .PRESENT, some "Alice"⟩])
    ∧ ((([⟨2, "E1", ⟨2024, 1, 3⟩, .ABSENT, some "Alice"⟩,
            ⟨3, "E2", ⟨2024, 1, 2⟩, .PRESENT, none⟩,
            ⟨1, "E1", ⟨2024, 1, 1⟩, .PRESENT, some "Alice"⟩] : List Attendance).map
          (fun r => (r.oid, r.employee_id, r.date, r.status))).Perm
          (((⟨[⟨0, "E1", "Alice", "a@x.com", "Eng"⟩],
              [⟨1, "E1", ⟨2024, 1, 1⟩, .PRESENT⟩, ⟨2, "E1", ⟨2024, 1, 3⟩, .ABSENT⟩,
                ⟨3, "E2", ⟨2024, 1, 2⟩, .PRESENT⟩], 4⟩ : Store).attendance.filter
            (fun r => (match (none : Option String) with
                | some v => r.employee_id == v
                | none => true)
              && (⟨2024, 1, 1⟩ : PyDate).le r.date
              && r.date.le ⟨2024, 1, 3⟩)).map
            (fun r => (r.oid, r.employee_id, r.date, r.status)))
        ∧ ([⟨2, "E1", ⟨2024, 1, 3⟩, .ABSENT, some "Alice"⟩,
            ⟨3, "E2", ⟨2024, 1, 2⟩, .PRESENT, none⟩,
            ⟨1, "E1", ⟨2024, 1, 1⟩, .PRESENT, some "Alice"⟩] : List Attendance).Pairwise
            (fun x y => y.date.le x.date = true)
        ∧ ((⟨2024, 1, 3⟩ : PyDate).lt ⟨2024, 1, 1⟩ = true →
            ([⟨2, "E1", ⟨2024, 1, 3⟩, .ABSENT, some "Alice"⟩,
              ⟨3, "E2", ⟨2024, 1, 2⟩, .PRESENT, none⟩,
              ⟨1, "E1", ⟨2024, 1, 1⟩, .PRESENT, some "Alice"⟩] : List Attendance) = [])) :=
  ⟨⟨by decide, by decide, by decide, by decide⟩,
    claim_C7_conjunctive_filters_sorted
      ⟨[⟨0, "E1", "Alice", "a@x.com", "Eng"⟩],
        [⟨1, "E1", ⟨2024, 1, 1⟩, .PRESENT⟩, ⟨2, "E1", ⟨2024, 1, 3⟩, .ABSENT⟩,
          ⟨3, "E2", ⟨2024, 1, 2⟩, .PRESENT⟩], 4⟩
      none "2024-01-01" "2024-01-03" ⟨2024, 1, 1⟩ ⟨2024, 1, 3⟩
      [⟨2, "E1", ⟨2024, 1, 3⟩, .ABSENT, some "Alice"⟩,
        ⟨3, "E2", ⟨2024, 1, 2⟩, .PRESENT, none⟩,
        ⟨1, "E1", ⟨2024, 1, 1⟩, .PRESENT, some "Alice"⟩]
      (by decide) (by decide) (by decide) (by decide)⟩

/-- C8: attendance-date validation rejects (with ValidationError) every date
strictly after the current date and accepts the payload whose date equals
the current date. -/
theorem claim_C8_future_date_rejected_today_ok :
    ∀ (today : PyDate) (a : AttendanceCreate),
      (today.lt a.date = true →
        validateAttendanceCreate today a = .error .requestValidationError) ∧
      (a.date = today → validateAttendanceCreate today a = .ok a) := by
  intro today a
  constructor
  · intro h
    simp [validateAttendanceCreate, validate_date, h]
  · intro h
    have hlt : today.lt a.date = false := by
      rw [h]
      exact PyDate.lt_irrefl today
    simp [validateAttendanceCreate, validate_date, hlt]

/-- Witness for C8: today 2024-01-02; the date 2024-01-03 is rejected and
the date 2024-01-02 is accepted. -/
theorem claim_C8_witness :
    ((⟨2024, 1, 2⟩ : PyDate).lt ⟨2024, 1, 3⟩ = true
      ∧ validateAttendanceCreate ⟨2024, 1, 2⟩ ⟨"E1", ⟨2024, 1, 3⟩, .PRESENT⟩
        = .error .requestValidationError)
    ∧ validateAttendanceCreate ⟨2024, 1, 2⟩ ⟨"E1", ⟨2024, 1, 2⟩, .PRESENT⟩
        = .ok ⟨"E1", ⟨2024, 1, 2⟩, .PRESENT⟩ :=
  ⟨⟨by decide,
      (claim_C8_future_date_rejected_today_ok ⟨2024, 1, 2⟩
        ⟨"E1", ⟨2024, 1, 3⟩, .PRESENT⟩).1 (by decide)⟩,
    (claim_C8_future_date_rejected_today_ok ⟨2024, 1, 2⟩
      ⟨"E1", ⟨2024, 1, 2⟩, .PRESENT⟩).2 rfl⟩

/-- C9: every record the MongoDB list-attendance returns carries an
employee_name resolved by a per-record lookup at read time — null when no
stored employee has that employee_id, the employee's full_name when one
does — and the operation itself succeeds regardless. -/
theorem claim_C9_orphan_record_null_name :
    (∀ (st : Store) (eid df dt : Option String) (rs : List Attendance),
      mongoGetAttendance st eid df dt = .ok rs →
      ∀ r ∈ rs,
        ((∀ e ∈ st.employees, e.employee_id ≠ r.employee_id) →
          r.employee_name = none)
        ∧ (∀ emp, findOneEmployeeByEid st r.employee_id = some emp →
            r.employee_name = some emp.full_name))
    ∧ (∀ (st : Store) (eid : Option String),
        ∃ rs, mongoGetAttendance st eid none none = .ok rs) := by
  constructor
  · intro st eid df dt rs hok r hr
    obtain ⟨docs, rfl⟩ := mongoGetAttendance_ok_shape hok
    obtain ⟨doc, hdoc, rfl⟩ := List.mem_map.mp hr
    constructor
    · intro hnone
      have hfind : findOneEmployeeByEid st doc.employee_id = none := by
        rw [findOneEmployeeByEid, List.find?_eq_none]
        intro x hx
        simp only [beq_iff_eq]
        exact hnone x hx
      show ((findOneEmployeeByEid st doc.employee_id).map (fun e => e.full_name)) = none
      rw [hfind]
      rfl
    · intro emp hemp
      show ((findOneEmployeeByEid st doc.employee_id).map (fun e => e.full_name))
        = some emp.full_name
      rw [hemp]
      rfl
  · intro st eid
    exact ⟨_, rfl⟩

/-- Witness for C9: a store holding an attendance record for E1 but no
employees; the list operation succeeds and returns that record with a null
employee_name. -/
theorem claim_C9_witness :
    (mongoGetAttendance ⟨[], [⟨0, "E1", ⟨2024, 1, 1⟩, .PRESENT⟩], 1⟩
        none none none
      = .ok [⟨0, "E1", ⟨2024, 1, 1⟩, .PRESENT, none⟩])
    ∧ ((⟨0, "E1", ⟨2024, 1, 1⟩, .PRESENT, none⟩ : Attendance)
        ∈ [(⟨0, "E1", ⟨2024, 1, 1⟩, .PRESENT, none⟩ : Attendance)])
    ∧ (∀ e ∈ (⟨[], [⟨0, "E1", ⟨2024, 1, 1⟩, .PRESENT⟩], 1⟩ : Store).employees,
        e.employee_id ≠ "E1")
    ∧ (⟨0, "E1", ⟨2024, 1, 1⟩, .PRESENT, none⟩ : Attendance).employee_name = none :=
  ⟨by decide, by decide, by decide,
    (claim_C9_orphan_record_null_name.1
      ⟨[], [⟨0, "E1", ⟨2024, 1, 1⟩, .PRESENT⟩], 1⟩ none none none
      [⟨0, "E1", ⟨2024, 1, 1⟩, .PRESENT, none⟩] (by decide)
      ⟨0, "E1", ⟨2024, 1, 1⟩, .PRESENT, none⟩ (by decide)).1 (by decide)⟩

/-- A payload accepted by employee validation carries the trimmed forms of
the submitted strings. -/
theorem validateEmployeeCreate_ok_spec {raw v : EmployeeCreate}
    (h : validateEmployeeCreate raw = .ok v) :
    v.employee_id = pyStrip raw.employee_id
      ∧ v.full_name = pyStrip raw.full_name
      ∧ v.department = pyStrip raw.department := by
  unfold validateEmployeeCreate at h
  split_ifs at h
  injection h with h
  subst h
  exact ⟨rfl, rfl, rfl⟩

/-- C10: an accepted employee payload is persisted with employee_id,
full_name and department equal to the whitespace-trimmed submissions, and
the duplicate check runs on the trimmed employee_id, so a second submission
whose employee_id trims to the same string fails with ConflictError. -/
theorem claim_C10_trimmed_fields_and_conflict :
    ∀ (raw1 raw2 v1 v2 : EmployeeCreate) (st st' : Store) (emp : Employee),
      validateEmployeeCreate raw1 = .ok v1 →
      validateEmployeeCreate raw2 = .ok v2 →
      create_employeeSeq st v1 = .ok (emp, st') →
      (emp.employee_id = pyStrip raw1.employee_id
        ∧ emp.full_name = pyStrip raw1.full_name
        ∧ emp.department = pyStrip raw1.department
        ∧ emp ∈ st'.employees)
      ∧ (pyStrip raw2.employee_id = pyStrip raw1.employee_id →
          create_employeeSeq st' v2
            = .error (.httpException 400 "Employee ID already exists")) := by
  intro raw1 raw2 v1 v2 st st' emp hv1 hv2 hc
  obtain ⟨he1, hn1, hd1⟩ := validateEmployeeCreate_ok_spec hv1
  obtain ⟨hemps, hatt, heid, hname, hemail, hdept⟩ :=
    create_employee_ok_spec (show create_employee st st v1 = _ from hc)
  have hmem : emp ∈ st'.employees := by
    rw [hemps]
    exact List.mem_append.mpr (Or.inr (List.mem_singleton.mpr rfl))
  constructor
  · exact ⟨heid.trans he1, hname.trans hn1, hdept.trans hd1, hmem⟩
  · intro hstrip
    obtain ⟨he2, _, _⟩ := validateEmployeeCreate_ok_spec hv2
    show create_employee st' st' v2 = _
    apply create_employee_conflict
    exact ⟨emp, hmem,
      heid.trans (he1.trans ((hstrip.symm).trans he2.symm))⟩

/-- Witness for C10: submitting " E1 " (with surrounding whitespace) stores
the trimmed employee E1; a second submission with employee_id "E1 " then
fails with the ConflictError. -/
theorem claim_C10_witness :
    (validateEmployeeCreate ⟨" E1 ", "Alice", "a@x.com", "Eng"⟩
        = .ok ⟨"E1", "Alice", "a@x.com", "Eng"⟩
      ∧ validateEmployeeCreate ⟨"E1 ", "Bob", "b@y.com", "Sales"⟩
        = .ok ⟨"E1", "Bob", "b@y.com", "Sales"⟩
      ∧ create_employeeSeq emptyStore ⟨"E1", "Alice", "a@x.com", "Eng"⟩
        = .ok (⟨0, "E1", "Alice", "a@x.com", "Eng"⟩,
            ⟨[⟨0, "E1", "Alice", "a@x.com", "Eng"⟩], [], 1⟩))
    ∧ (((⟨0, "E1", "Alice", "a@x.com", "Eng"⟩ : Employee).employee_id
          = pyStrip " E1 "
        ∧ (⟨0, "E1", "Alice", "a@x.com", "Eng"⟩ : Employee).full_name
          = pyStrip "Alice"
        ∧ (⟨0, "E1", "Alice", "a@x.com", "Eng"⟩ : Employee).department
          = pyStrip "Eng"
        ∧ (⟨0, "E1", "Alice", "a@x.com", "Eng"⟩ : Employee)
          ∈ (⟨[⟨0, "E1", "Alice", "a@x.com", "Eng"⟩], [], 1⟩ : Store).employees)
      ∧ (pyStrip "E1 " = pyStrip " E1 " →
          create_employeeSeq ⟨[⟨0, "E1", "Alice", "a@x.com", "Eng"⟩], [], 1⟩
              ⟨"E1", "Bob", "b@y.com", "Sales"⟩
            = .error (.httpException 400 "Employee ID already exists"))) :=
  ⟨⟨by decide, by decide, by decide⟩,
    claim_C10_trimmed_fields_and_conflict
      ⟨" E1 ", "Alice", "a@x.com", "Eng"⟩ ⟨"E1 ", "Bob", "b@y.com", "Sales"⟩
      ⟨"E1", "Alice", "a@x.com", "Eng"⟩ ⟨"E1", "Bob", "b@y.com", "Sales"⟩
      emptyStore ⟨[⟨0, "E1", "Alice", "a@x.com", "Eng"⟩], [], 1⟩
      ⟨0, "E1", "Alice", "a@x.com", "Eng"⟩
      (by decide) (by decide) (by decide)⟩

end HRMS
